import Mathlib

/-!
Verification of the module-discovery and path utilities of scikit-build
(`skbuild/utils/__init__.py`, together with `strip_package` from
`skbuild/setuptools_wrap.py`, known here only through its tests and the
design document).

The Python code is shallowly embedded: strings stay strings, the
filesystem becomes an explicit value listing regular files and
directories, `os.path` operations are modelled as pure functions on
POSIX-style path strings, and the external `distutils` collaborators
(`build_py.find_package_modules`, `FileList.process_template_line`) are
modelled from their documented behaviour or taken as parameters.
-/

namespace Skbuild

/-! ### String primitives

Python string operations used by the code, implemented structurally over
`String.data` so that the kernel can evaluate them on concrete inputs and
proofs can proceed by list reasoning. -/

/-- Python `s.startswith(p)`. -/
def strStartsWith (s p : String) : Bool :=
  p.data.isPrefixOf s.data

/-- Python `s.endswith(p)`. -/
def strEndsWith (s p : String) : Bool :=
  p.data.isSuffixOf s.data

/-- Python `s[n:]` for a nonnegative `n` (slicing past the end yields `""`). -/
def strDrop (s : String) (n : Nat) : String :=
  ⟨s.data.drop n⟩

/-- Python `c in s` for a single character `c`. -/
def strContains (s : String) (c : Char) : Bool :=
  s.data.contains c

/-- Python `len(s)`. -/
def strLen (s : String) : Nat :=
  s.data.length

/-- Python `s.replace(old, new)` for a single-character `old` and `new`
(the only form the code uses: the path separators `/` and `\`). -/
def replaceChar (old new : Char) (s : String) : String :=
  ⟨s.data.map fun c => if c = old then new else c⟩

/-- Split a string at every character satisfying `p`
(`"".split == [""]`, like Python `re.split` on separators). -/
def splitChars (p : Char → Bool) : List Char → List Char → List (List Char)
  | [], acc => [acc.reverse]
  | c :: cs, acc =>
    if p c then acc.reverse :: splitChars p cs [] else splitChars p cs (c :: acc)

/-- The path split on both separators `/` and `\`. -/
def splitSeps (s : String) : List String :=
  (splitChars (fun c => c = '/' || c = '\\') s.data []).map fun l => ⟨l⟩

/-- Join path segments with `/` (`joinSlash [] = ""`). -/
def joinSlash : List String → String
  | [] => ""
  | [x] => x
  | x :: y :: xs => x ++ "/" ++ joinSlash (y :: xs)

/-! ### `os.path` model (POSIX flavour) -/

/-- `os.path.join(a, b)` for two components, POSIX rules: an absolute
`b` replaces `a`; otherwise a separator is inserted unless `a` is empty
or already ends in one. -/
def joinPath (a b : String) : String :=
  if strStartsWith b "/" then b
  else if a = "" then b
  else if strEndsWith a "/" then a ++ b
  else a ++ "/" ++ b

/-- The filesystem visible to discovery: regular files and directories,
named by the path strings the program would use for them (relative paths
are relative to the discovery working directory). -/
structure FileSystem where
  files : List String
  dirs : List String
deriving DecidableEq

/-- `os.path.isfile`. -/
def isFile (fs : FileSystem) (p : String) : Bool :=
  fs.files.contains p

/-- `os.path.isdir`. -/
def isDir (fs : FileSystem) (p : String) : Bool :=
  fs.dirs.contains p

/-- `os.path.exists`. -/
def pathExists (fs : FileSystem) (p : String) : Bool :=
  isFile fs p || isDir fs p

/-- `os.path.abspath` restricted to what the code compares it for:
prefix the working directory onto a relative path. -/
def absPath (cwd p : String) : String :=
  if strStartsWith p "/" then p else joinPath cwd p

/-! ### Path normalizers (`to_platform_path`, `to_unix_path`)

`os.sep` is a single character (`/` or `\`), modelled as a `Char`
parameter. -/

/-- `skbuild.utils.to_platform_path`:
`path.replace("/", os.sep).replace("\\", os.sep) if path is not None else None`. -/
def to_platform_path (osSep : Char) : Option String → Option String
  | none => none
  | some p => some (replaceChar '\\' osSep (replaceChar '/' osSep p))

/-- `skbuild.utils.to_unix_path`:
`path.replace("\\", "/") if path is not None else None`. -/
def to_unix_path : Option String → Option String
  | none => none
  | some p => some (replaceChar '\\' '/' p)

/-! ### The module finder (`skbuild.utils.PythonModuleFinder`) -/

/-- The finder's constructor state: `packages`, `package_dir`,
`py_modules`, `alternative_build_base` (the Secondary Root). -/
structure PythonModuleFinder where
  packages : List String
  package_dir : List (String × String)
  py_modules : List String
  alternative_build_base : Option String
deriving DecidableEq

/-- A `(package, module, module_file)` triple. -/
abbrev ModuleTriple := String × String × String

/-- One entry of `glob.glob(os.path.join(package_dir, "*.py"))`: the
entry's path starts with the directory prefix, the remaining name has no
further separator, matches `*.py`, and is not hidden (glob's `*` does
not match a leading dot). -/
def isPyInDir (dir f : String) : Bool :=
  let pref := if dir = "" then "" else if strEndsWith dir "/" then dir else dir ++ "/"
  strStartsWith f pref && strEndsWith f ".py"
    && !(strContains (strDrop f (strLen pref)) '/')
    && !(strStartsWith (strDrop f (strLen pref)) ".")

/-- `glob.glob(os.path.join(package_dir, "*.py"))` over the modelled
filesystem (glob matches any existing entry, file or directory). -/
def globPy (fs : FileSystem) (dir : String) : List String :=
  (fs.files ++ fs.dirs).filter (isPyInDir dir)

/-- `os.path.basename`: the part of the path after its last `/`. -/
def baseName (p : String) : String :=
  ⟨(p.data.reverse.takeWhile fun c => c ≠ '/').reverse⟩

/-- `os.path.splitext(os.path.basename(f))[0]` for an `f` ending in
`.py`: the module name. -/
def moduleNameOf (f : String) : String :=
  ⟨(baseName f).data.dropLast.dropLast.dropLast⟩

/-- `distutils.command.build_py.build_py.find_package_modules` (the
external base class the finder delegates to): glob `*.py` under
`package_dir`, drop the setup script, and emit one
`(package, module, file)` triple per remaining file. -/
def super_find_package_modules (fs : FileSystem) (cwd package package_dir : String) :
    List ModuleTriple :=
  (globPy fs package_dir).filterMap fun f =>
    if absPath cwd f = absPath cwd "setup.py" then none
    else some (package, moduleNameOf f, f)

/-- The `_strip_directory` closure of
`PythonModuleFinder.find_package_modules`: when an
`alternative_build_base` is set and `module_file` starts with it (a raw
character-prefix test), drop the first `len(base) + 1` characters. -/
def stripDirectory (alt : Option String) (entry : ModuleTriple) : ModuleTriple :=
  match alt with
  | some base =>
    if strStartsWith entry.2.2 base then
      (entry.1, entry.2.1, strDrop entry.2.2 (strLen base + 1))
    else entry
  | none => entry

/-- `PythonModuleFinder.find_package_modules`: when `package_dir` is
nonempty, absent on disk, and an `alternative_build_base` is set, the
directory is rewritten to `join(alternative_build_base, package_dir)`;
the base-class enumeration then runs and `_strip_directory` is mapped
over its result. -/
def find_package_modules (m : PythonModuleFinder) (fs : FileSystem) (cwd package pkgDir : String) :
    List ModuleTriple :=
  let pd :=
    if pkgDir ≠ "" ∧ pathExists fs pkgDir = false ∧ m.alternative_build_base.isSome then
      joinPath (m.alternative_build_base.getD "") pkgDir
    else pkgDir
  (super_find_package_modules fs cwd package pd).map (stripDirectory m.alternative_build_base)

/-- `PythonModuleFinder.check_module`: when an `alternative_build_base`
is set and `join(base, module_file)` exists, redirect `module_file`
there; return `True` iff the resulting path is a regular file, else warn
(`"file %s (for module %s) not found"`, recorded as the
`(file, module)` pair) and return `False`. -/
def check_module (alt : Option String) (fs : FileSystem) (module module_file : String) :
    Bool × List (String × String) :=
  let mf :=
    match alt with
    | some base =>
      let updated := joinPath base module_file
      if pathExists fs updated then updated else module_file
    | none => module_file
  if isFile fs mf = false then (false, [(mf, module)]) else (true, [])

/-! ### `push_dir` and `find_all_modules`

The working directory is the only piece of process state these touch, so
the embedding threads an explicit `cwd : String`. A body run inside the
context manager may itself change the working directory and may fail, so
it is a function `String → Except String (α × String)` from the entry
working directory to a result (or exception) and an exit working
directory. -/

/-- Python truthiness of the `directory` argument (`None` and `""` are
falsy). -/
def truthy : Option String → Bool
  | none => false
  | some s => s ≠ ""

/-- Running `with push_dir(directory, make_directory): body` from
working directory `cwd`. `__enter__` saves `cwd` and, when `directory`
is truthy, creates it if asked and changes into it (`os.chdir` raises
when the directory is missing, in which case the body never runs and the
working directory is untouched). `__exit__` runs on both the normal and
the exceptional exit and restores the saved directory
unconditionally. -/
def with_push_dir (fs : FileSystem) (directory : Option String) (make_directory : Bool)
    (body : String → Except String (α × String)) (cwd : String) :
    Except String α × String :=
  if truthy directory then
    let d := directory.getD ""
    if make_directory || isDir fs d then
      match body d with
      | .ok (a, _) => (.ok a, cwd)
      | .error e => (.error e, cwd)
    else (.error "FileNotFoundError", cwd)
  else
    match body cwd with
    | .ok (a, _) => (.ok a, cwd)
    | .error e => (.error e, cwd)

/-- `PythonModuleFinder.find_all_modules`: run the base-class
enumeration (an external collaborator, taken as an arbitrary body that
may move the working directory and may fail) inside
`with push_dir(project_dir)`. -/
def find_all_modules (fs : FileSystem) (project_dir : Option String)
    (superFind : String → Except String (List ModuleTriple × String)) (cwd : String) :
    Except String (List ModuleTriple) × String :=
  with_push_dir fs project_dir false superFind cwd

/-! ### `parse_manifestin`

`FileList` is represented by its `files` list;
`FileList.process_template_line` is an external `distutils` collaborator
that either extends the accumulated state or raises
(`DistutilsTemplateError` / `ValueError`), so it is a parameter
`List String → String → Except String (List String)`. The template's
logical lines (after `TextFile`'s comment stripping, blank skipping and
joining) are the `contents` list, numbered from 1. -/

/-- The `while` loop of `parse_manifestin`: process each line in order;
a line whose processing raises leaves the accumulated file list
unchanged and is reported as a `(line number, message)` pair; every
other line is still processed. -/
def process_template_lines (process_line : List String → String → Except String (List String)) :
    List String → List String → Nat → List String × List (Nat × String)
  | [], fl, _ => (fl, [])
  | line :: rest, fl, n =>
    match process_line fl line with
    | .ok fl' => process_template_lines process_line rest fl' (n + 1)
    | .error msg =>
      let r := process_template_lines process_line rest fl (n + 1)
      (r.1, (n, msg) :: r.2)

/-- `skbuild.utils.parse_manifestin`: an absent template yields `[]`;
otherwise every logical line is processed in order, malformed lines
being reported (`f"{template.filename}, line {template.current_line}: {msg}"`,
recorded as a `(filename, line, message)` triple) and skipped, and the
accumulated `FileList.files` is returned. -/
def parse_manifestin (fs : FileSystem)
    (process_line : List String → String → Except String (List String))
    (contents : List String) (template : String) :
    List String × List (String × Nat × String) :=
  if pathExists fs template then
    let r := process_template_lines process_line contents [] 1
    (r.1, r.2.map fun p => (template, p.1, p.2))
  else ([], [])

/-! ### `strip_package`

`strip_package` lives in `skbuild/setuptools_wrap.py`, which is not part
of the sources here; only its test table (`tests/test_setup.py`,
`test_strip_package`) and the design document describe it. -/

/-- Modelled from the spec: `strip_package` of
`skbuild/setuptools_wrap.py` (absent from the sources; only
`tests/test_setup.py::test_strip_package` exercises it). Given ordered
package-name components and a module file path, it removes the leading
path segments matching the components when they appear as an exact,
contiguous, leading run of the path's segments (both `/` and `\` are
segment delimiters; the output uses `/`; consuming every segment yields
`""`); otherwise — empty component list, absolute path, or any
mismatch — the path is returned unchanged. -/
def strip_package (package_parts : List String) (module_file : String) : String :=
  if package_parts = [] ∨ strStartsWith module_file "/" then module_file
  else
    let segs := splitSeps module_file
    if segs.take package_parts.length = package_parts then
      joinSlash (segs.drop package_parts.length)
    else module_file

/-! ### Helper lemmas -/

theorem data_ne_nil_of_ne_empty {s : String} (h : s ≠ "") : s.data ≠ [] := by
  intro hd
  exact h (String.ext hd)

theorem strStartsWith_iff {s p : String} : strStartsWith s p = true ↔ p.data <+: s.data := by
  simp [strStartsWith]

theorem drop_len_succ_append (a : List Char) (c : Char) (t : List Char) :
    (a ++ c :: t).drop (a.length + 1) = t := by
  rw [show a ++ c :: t = (a ++ [c]) ++ t from by simp, List.drop_left' (by simp)]

theorem strEndsWith_slash_append (a b : String) (hb : b ≠ "") :
    strEndsWith (a ++ b) "/" = strEndsWith b "/" := by
  have hd : b.data ≠ [] := data_ne_nil_of_ne_empty hb
  simp only [strEndsWith, List.isSuffixOf, String.data_append, List.reverse_append]
  rcases hx : b.data.reverse with _ | ⟨x, xs⟩
  · exact absurd (List.reverse_eq_nil_iff.mp hx) hd
  · simp [List.isPrefixOf]

/-! ### Theorems for the claims -/

/-- Claim C8: both path normalizers are pure functions that propagate
absence: `to_platform_path None` is `None` and `to_unix_path None` is
`None`, no error is raised (the functions are total), and every
non-`None` string input yields a string. -/
theorem normalizers_propagate_none (osSep : Char) (s : String) :
    to_platform_path osSep none = none ∧ to_unix_path none = none ∧
    (to_platform_path osSep (some s)).isSome = true ∧
    (to_unix_path (some s)).isSome = true :=
  ⟨rfl, rfl, rfl, rfl⟩

/-- Claim C9: Unix-separator normalization is idempotent on every
non-`None` string. -/
theorem to_unix_path_idempotent (p : String) :
    to_unix_path (to_unix_path (some p)) = to_unix_path (some p) := by
  simp only [to_unix_path, replaceChar, Option.some.injEq]
  apply String.ext
  show (p.data.map _).map _ = p.data.map _
  rw [List.map_map]
  apply List.map_congr_left
  intro a _
  by_cases h : a = '\\' <;> simp [h, Function.comp]

/-- Claim C5: `find_all_modules` wrapped in `push_dir` leaves the
working directory where it found it on every exit path — whether the
wrapped enumeration returns normally, raises, or the initial directory
change itself fails, the final working directory equals the initial
one. -/
theorem find_all_modules_restores_cwd (fs : FileSystem) (project_dir : Option String)
    (superFind : String → Except String (List ModuleTriple × String)) (cwd : String) :
    (find_all_modules fs project_dir superFind cwd).2 = cwd := by
  simp only [find_all_modules, with_push_dir]
  split
  · split
    · split <;> rfl
    · rfl
  · split <;> rfl

/-- Claim C7: when the template path does not exist on disk,
`parse_manifestin` returns the empty file collection (and reports
nothing) instead of raising. -/
theorem parse_manifestin_missing_template (fs : FileSystem)
    (process_line : List String → String → Except String (List String))
    (contents : List String) (template : String)
    (h : pathExists fs template = false) :
    parse_manifestin fs process_line contents template = ([], []) := by
  simp [parse_manifestin, h]

theorem parse_manifestin_missing_template_witness :
    parse_manifestin ⟨["setup.py"], ["src"]⟩ (fun fl _ => .ok fl) ["include a.txt"]
      "MANIFEST.in" = ([], []) :=
  parse_manifestin_missing_template _ _ _ _ (by decide)

/-- Claim C10: the overlay's prefix stripping acts on a raw
character-prefix match: whenever a module file path starts with the
`alternative_build_base` string, exactly the first `len(base) + 1`
characters are removed, even when the match does not end at a
path-segment boundary — as `find_package_modules` with base
`cmake-install` over a package directory `cmake-installer` shows, where
the enumerated `cmake-installer/x.py` is truncated to `r/x.py`. -/
theorem strip_directory_raw_match :
    (∀ base p m f, strStartsWith f base = true →
      stripDirectory (some base) (p, m, f) = (p, m, strDrop f (strLen base + 1)))
    ∧ find_package_modules ⟨["p"], [], [], some "cmake-install"⟩
        ⟨["cmake-installer/x.py"], ["cmake-installer"]⟩ "/proj" "p" "cmake-installer"
        = [("p", "x", "r/x.py")] := by
  constructor
  · intro base p m f h
    simp [stripDirectory, h]
  · decide

theorem strip_directory_raw_match_witness :
    stripDirectory (some "cmake-install") ("p", "x", "cmake-installer/x.py")
      = ("p", "x", "r/x.py") :=
  (strip_directory_raw_match.1 "cmake-install" "p" "x" "cmake-installer/x.py"
    (by decide)).trans (by decide)

/-- Counterexample to claim C4 as stated: with Secondary Root `alt`, a
regular file `m.py` under the Primary Root, and a directory named
`alt/m.py` under the Secondary Root, `check_module` returns `False` and
warns even though the file exists under the Primary Root — the code
consults the Secondary Root first (via `os.path.exists`) rather than
checking the Primary Root first. -/
theorem check_module_primary_shadowed :
    check_module (some "alt") ⟨["m.py"], ["alt/m.py"]⟩ "m" "m.py"
        = (false, [("alt/m.py", "m")])
    ∧ isFile ⟨["m.py"], ["alt/m.py"]⟩ "m.py" = true := by
  decide

/-- Claim C4 (amended): `check_module` first consults
`Secondary_Root/file_path` when a Secondary Root is configured and
redirects to it whenever that path exists (file or directory);
otherwise it keeps the Primary-Root path. It returns `True` iff the
selected path is a regular file; in particular, when the file exists at
neither location it returns `False` and emits a warning naming the file
and module, and it never raises (the function is total). -/
theorem check_module_amended (alt : Option String) (fs : FileSystem) (module mf : String) :
    (pathExists fs mf = false →
      (∀ base, alt = some base → pathExists fs (joinPath base mf) = false) →
      check_module alt fs module mf = (false, [(mf, module)]))
    ∧ (∀ base, alt = some base → pathExists fs (joinPath base mf) = true →
      check_module alt fs module mf =
        if isFile fs (joinPath base mf) then (true, [])
        else (false, [(joinPath base mf, module)]))
    ∧ ((∀ base, alt = some base → pathExists fs (joinPath base mf) = false) →
      check_module alt fs module mf =
        if isFile fs mf then (true, []) else (false, [(mf, module)])) := by
  refine ⟨?_, ?_, ?_⟩
  · intro hmf halt
    have hfile : isFile fs mf = false := by
      simp only [pathExists, Bool.or_eq_false_iff] at hmf
      exact hmf.1
    cases alt with
    | none => simp [check_module, hfile]
    | some base =>
      have h := halt base rfl
      simp [check_module, h, hfile]
  · intro base hb hex
    subst hb
    simp only [check_module, hex, if_pos]
    split <;> simp_all
  · intro halt
    cases alt with
    | none =>
      simp only [check_module]
      cases hf : isFile fs mf <;> simp [hf]
    | some base =>
      have h := halt base rfl
      simp only [check_module, h]
      cases hf : isFile fs mf <;> simp [hf]

theorem check_module_amended_witness :
    check_module (some "alt") ⟨["m.py"], []⟩ "m" "m.py" = (true, []) ∧
    check_module (some "alt") ⟨["alt/m.py"], []⟩ "m" "m.py" = (true, []) :=
  ⟨((check_module_amended (some "alt") ⟨["m.py"], []⟩ "m" "m.py").2.2
      (fun _ hb => by cases hb; decide)).trans (by decide),
   ((check_module_amended (some "alt") ⟨["alt/m.py"], []⟩ "m" "m.py").2.1 "alt" rfl
      (by decide)).trans (by decide)⟩

/-- Claim C3: `find_package_modules` enumerates directly from the
declared directory when it is empty or exists under the Primary Root;
otherwise, when a Secondary Root is configured, it enumerates from the
declared directory rewritten under the Secondary Root
(`join(alternative_build_base, package_dir)`). -/
theorem find_package_modules_dir_dispatch (m : PythonModuleFinder) (fs : FileSystem)
    (cwd pkg d : String) :
    ((d = "" ∨ pathExists fs d = true) →
      find_package_modules m fs cwd pkg d
        = (super_find_package_modules fs cwd pkg d).map
            (stripDirectory m.alternative_build_base))
    ∧ (∀ base, m.alternative_build_base = some base → d ≠ "" → pathExists fs d = false →
      find_package_modules m fs cwd pkg d
        = (super_find_package_modules fs cwd pkg (joinPath base d)).map
            (stripDirectory m.alternative_build_base)) := by
  constructor
  · intro h
    have hneg : ¬(d ≠ "" ∧ pathExists fs d = false ∧ m.alternative_build_base.isSome) := by
      rintro ⟨h1, h2, -⟩
      rcases h with h | h
      · exact h1 h
      · rw [h] at h2
        exact Bool.noConfusion h2
    simp only [find_package_modules, if_neg hneg]
  · intro base hb h1 h2
    simp only [find_package_modules, hb, Option.getD_some]
    rw [if_pos ⟨h1, h2, rfl⟩]

theorem find_package_modules_dir_dispatch_witness :
    find_package_modules ⟨["p"], [], [], none⟩ ⟨[], []⟩ "/proj" "p" ""
      = (super_find_package_modules ⟨[], []⟩ "/proj" "p" "").map (stripDirectory none) :=
  (find_package_modules_dir_dispatch ⟨["p"], [], [], none⟩ ⟨[], []⟩ "/proj" "p" "").1
    (Or.inl rfl)

/-- Claim C2: when the path's leading segments (under both `/` and `\`
delimiters) are exactly the package components, `strip_package` removes
exactly those segments — the empty string when every segment is
consumed; when the path does not begin with the components (empty
component list, absolute path, or only a proper prefix matching), the
path comes back unchanged. -/
theorem strip_package_spec (P : List String) (F : String) :
    (∀ R : List String, P ≠ [] → strStartsWith F "/" = false → splitSeps F = P ++ R →
      strip_package P F = joinSlash R)
    ∧ (P = [] ∨ strStartsWith F "/" = true ∨ (splitSeps F).take P.length ≠ P →
      strip_package P F = F) := by
  constructor
  · intro R hP hAbs hsplit
    have hcond : ¬(P = [] ∨ strStartsWith F "/" = true) := by
      rintro (h | h)
      · exact hP h
      · rw [hAbs] at h
        exact Bool.noConfusion h
    simp only [strip_package, if_neg hcond, hsplit, List.take_left, List.drop_left, if_true,
      eq_self_iff_true]
  · intro h
    rcases h with h | h | h
    · simp only [strip_package, if_pos (Or.inl h)]
    · simp only [strip_package, if_pos (Or.inr h)]
    · by_cases habs : P = [] ∨ strStartsWith F "/" = true
      · simp only [strip_package, if_pos habs]
      · simp only [strip_package, if_neg habs, if_neg h]

theorem strip_package_spec_witness :
    strip_package ["foo", "bar"] "foo/bar/baz/file.py" = "baz/file.py" :=
  ((strip_package_spec ["foo", "bar"] "foo/bar/baz/file.py").1 ["baz", "file.py"]
    (by decide) (by decide) (by decide)).trans (by decide)

theorem process_template_lines_append
    (pl : List String → String → Except String (List String))
    (l₁ l₂ : List String) (fl : List String) (n : Nat) :
    process_template_lines pl (l₁ ++ l₂) fl n =
      ((process_template_lines pl l₂ (process_template_lines pl l₁ fl n).1 (n + l₁.length)).1,
       (process_template_lines pl l₁ fl n).2
         ++ (process_template_lines pl l₂ (process_template_lines pl l₁ fl n).1
              (n + l₁.length)).2) := by
  induction l₁ generalizing fl n with
  | nil => simp [process_template_lines]
  | cons line rest ih =>
    simp only [List.cons_append, process_template_lines]
    cases h : pl fl line with
    | ok fl' =>
      simp only [h, List.length_cons]
      rw [show rest.append l₂ = rest ++ l₂ from rfl, ih fl' (n + 1),
        show n + 1 + rest.length = n + (rest.length + 1) from by omega]
    | error msg =>
      simp only [h, List.length_cons]
      rw [show rest.append l₂ = rest ++ l₂ from rfl, ih fl (n + 1),
        show n + 1 + rest.length = n + (rest.length + 1) from by omega]
      simp [List.cons_append]

/-- Claim C6: a malformed logical line of the manifest template is
reported as a `(filename, line number, message)` triple, is skipped (it
leaves the accumulated file list untouched), and every other line is
still processed — the parse never aborts: the result consists of
exactly the contributions of the lines before and after the malformed
one, with the report inserted at the malformed line's position. -/
theorem parse_manifestin_skips_malformed (fs : FileSystem)
    (pl : List String → String → Except String (List String)) (template : String)
    (pre post : List String) (bad msg : String)
    (hex : pathExists fs template = true)
    (herr : pl (process_template_lines pl pre [] 1).1 bad = .error msg) :
    parse_manifestin fs pl (pre ++ bad :: post) template =
      ((process_template_lines pl post (process_template_lines pl pre [] 1).1
          (pre.length + 2)).1,
       ((process_template_lines pl pre [] 1).2
         ++ (pre.length + 1, msg)
           :: (process_template_lines pl post (process_template_lines pl pre [] 1).1
                (pre.length + 2)).2).map fun p => (template, p.1, p.2)) := by
  simp only [parse_manifestin, hex, if_true]
  rw [process_template_lines_append pl pre (bad :: post) [] 1]
  simp only [process_template_lines]
  rw [herr]
  have e1 : 1 + pre.length = pre.length + 1 := Nat.add_comm 1 _
  have e2 : pre.length + 1 + 1 = pre.length + 2 := rfl
  simp [e1, e2]

theorem parse_manifestin_skips_malformed_witness :
    parse_manifestin ⟨["MANIFEST.in"], []⟩
      (fun fl l => if l = "bad" then .error "unknown action" else .ok (fl ++ [l]))
      ["a", "bad", "b"] "MANIFEST.in"
      = (["a", "b"], [("MANIFEST.in", 2, "unknown action")]) :=
  (parse_manifestin_skips_malformed ⟨["MANIFEST.in"], []⟩
    (fun fl l => if l = "bad" then .error "unknown action" else .ok (fl ++ [l]))
    "MANIFEST.in" ["a"] ["b"] "bad" "unknown action" (by decide) rfl).trans
    (by decide)

/-- Counterexample to claim C1 as stated: with Secondary Root `ab` and a
package whose declared directory `ab/cd` is absent under the Primary
Root but present under the Secondary Root, the triple returned by
`find_package_modules` has path `ab/cd/x.py`, which begins with the
Secondary Root prefix `ab/` — the single prefix strip leaves a path
that still carries the Secondary Root string whenever the declared
directory itself starts with it. -/
theorem find_package_modules_prefix_leak :
    find_package_modules ⟨["p"], [], [], some "ab"⟩
        ⟨["ab/ab/cd/x.py"], ["ab", "ab/ab", "ab/ab/cd"]⟩ "/proj" "p" "ab/cd"
      = [("p", "x", "ab/cd/x.py")]
    ∧ strStartsWith "ab/cd/x.py" ("ab" ++ "/") = true
    ∧ pathExists ⟨["ab/ab/cd/x.py"], ["ab", "ab/ab", "ab/ab/cd"]⟩ "ab/cd" = false := by
  decide

/-- Claim C1 (amended): when the install-tree overlay applies (declared
directory nonempty, relative, without trailing separator and absent
under the Primary Root; Secondary Root configured, nonempty and without
trailing separator), every triple returned by `find_package_modules`
has a path of the form `declared_dir/The module file's basename` — the
Secondary Root prefix put on for enumeration is stripped back off, so
paths are rooted at the Primary Root's logical namespace; such a path
may nevertheless still begin with the Secondary Root string when the
declared directory itself does, so the literal reading of
"never carries the Secondary Root prefix" does not hold. -/
theorem find_package_modules_overlay_rooted
    (m : PythonModuleFinder) (fs : FileSystem) (cwd pkg d base : String)
    (halt : m.alternative_build_base = some base)
    (hbase : base ≠ "") (hbe : strEndsWith base "/" = false)
    (hd : d ≠ "") (hds : strStartsWith d "/" = false) (hde : strEndsWith d "/" = false)
    (hnex : pathExists fs d = false) :
    ∀ e ∈ find_package_modules m fs cwd pkg d,
      ∃ name : String, strContains name '/' = false ∧ e.2.2 = d ++ "/" ++ name := by
  intro e he
  have hjoin : joinPath base d = base ++ "/" ++ d := by
    simp [joinPath, hds, hbase, hbe]
  simp only [find_package_modules, halt, Option.getD_some] at he
  rw [if_pos ⟨hd, hnex, rfl⟩, hjoin] at he
  rcases List.mem_map.1 he with ⟨e₀, he₀, rfl⟩
  simp only [super_find_package_modules] at he₀
  rcases List.mem_filterMap.1 he₀ with ⟨f, hf, hg⟩
  by_cases hsetup : absPath cwd f = absPath cwd "setup.py"
  · rw [if_pos hsetup] at hg
    exact absurd hg (by simp)
  · rw [if_neg hsetup] at hg
    obtain rfl : (pkg, moduleNameOf f, f) = e₀ := Option.some.inj hg
    have hpdne : base ++ "/" ++ d ≠ "" := by
      intro h0
      have h1 := congrArg String.data h0
      simp [String.data_append] at h1
    have hpde : strEndsWith (base ++ "/" ++ d) "/" = false :=
      (strEndsWith_slash_append (base ++ "/") d hd).trans hde
    simp only [globPy, List.mem_filter] at hf
    have hPy := hf.2
    simp only [isPyInDir, if_neg hpdne, hpde, Bool.false_eq_true, if_false,
      Bool.and_eq_true, Bool.not_eq_true'] at hPy
    obtain ⟨⟨⟨h1, -⟩, h3⟩, -⟩ := hPy
    have hpre : ((base ++ "/" ++ d) ++ "/").data <+: f.data := strStartsWith_iff.mp h1
    obtain ⟨R, hfdR⟩ : ∃ R, f.data = ((base ++ "/" ++ d) ++ "/").data ++ R :=
      ⟨_, (List.prefix_iff_eq_append.mp hpre).symm⟩
    have hslash : ("/" : String).data = ['/'] := rfl
    have hdata : ((base ++ "/" ++ d) ++ "/").data
        = base.data ++ ['/'] ++ d.data ++ ['/'] := by
      simp [String.data_append, hslash]
    have hR3 : strContains ⟨R⟩ '/' = false := by
      have h4 : strDrop f (strLen ((base ++ "/" ++ d) ++ "/")) = (⟨R⟩ : String) := by
        show (⟨f.data.drop (((base ++ "/" ++ d) ++ "/").data.length)⟩ : String) = _
        rw [hfdR, List.drop_left]
      rw [← h4]
      exact h3
    have hfd' : f.data = base.data ++ '/' :: (d.data ++ '/' :: R) := by
      rw [hfdR, hdata]
      simp [List.append_assoc]
    have hsw : strStartsWith f base = true := by
      apply strStartsWith_iff.mpr
      rw [hfd']
      exact List.prefix_append _ _
    refine ⟨⟨R⟩, hR3, ?_⟩
    simp only [stripDirectory, hsw, if_true]
    show strDrop f (strLen base + 1) = _
    apply String.ext
    show f.data.drop (base.data.length + 1) = _
    rw [hfd', drop_len_succ_append]
    simp [String.data_append, hslash]

theorem strip_package_matches_test_table :
    strip_package [] "" = ""
    ∧ strip_package [] "foo/file.py" = "foo/file.py"
    ∧ strip_package ["foo"] "" = ""
    ∧ strip_package ["foo"] "foo/file.py" = "file.py"
    ∧ strip_package ["foo"] "foo\\file.py" = "file.py"
    ∧ strip_package ["foo", "bar"] "foo/file.py" = "foo/file.py"
    ∧ strip_package ["foo", "bar"] "foo/bar/file.py" = "file.py"
    ∧ strip_package ["foo", "bar"] "foo/bar/baz/file.py" = "baz/file.py"
    ∧ strip_package ["foo"] "/foo/file.py" = "/foo/file.py" := by
  decide

theorem find_package_modules_overlay_rooted_witness :
    ∃ name : String, strContains name '/' = false ∧
      ("p", "x", "pkg/x.py").2.2 = "pkg" ++ "/" ++ name :=
  find_package_modules_overlay_rooted ⟨["p"], [], [], some "base"⟩ ⟨["base/pkg/x.py"], []⟩
    "/proj" "p" "pkg" "base" rfl (by decide) (by decide) (by decide) (by decide) (by decide)
    (by decide) ("p", "x", "pkg/x.py") (by decide)

end Skbuild
